import Mathlib

/-!
Shallow embedding of the notebook-UI state controllers of this repository:

* `MainStateController` (interactive-common/mainStateController.tsx):
  cell view-model list, undo/redo stacks, execution-count reconciliation,
  `alterCellVM`, `handleMessage` dispatch;
* `NativeEditorStateController` (native-editor/nativeEditorStateController.ts):
  derived dispatcher and `canMoveUp` / `canMoveDown`;
* `IpynbEditor` (client/datascience/jupyter): the `load` lifecycle step.

TypeScript objects become Lean structures; in-place `setState` merges become
functional record updates; arrays become `List`; JS `array[i]` / `slice` /
`filter` / `findIndex` become `List.getD` / `List.take` / `List.filter` /
`List.findIdx?`.  Jupyter execution counts (nbformat: null or a non-negative
integer) are `Option Nat`; the JS truthiness test on the raw value (where the
number 0 is falsy) is kept explicitly.
-/

namespace VscPy

/-- CellState enum from client/datascience/types. -/
inductive CellState where
  | editing
  | init
  | executing
  | finished
  | error
deriving DecidableEq, Repr, Inhabited

/-- The nbformat cell payload (ICell.data) restricted to the fields the
controller reads: cell_type, source, execution_count. -/
structure CellData where
  cell_type : String
  source : String
  execution_count : Option Nat
deriving DecidableEq, Repr, Inhabited

/-- ICell from client/datascience/types: the fields the controller reads. -/
structure ICell where
  id : String
  file : String
  line : Nat
  state : CellState
  data : CellData
deriving DecidableEq, Repr, Inhabited

/-- Modelled from the spec: `ICellViewModel` (interactive-common/cell.ts is not
among the sources).  Per the glossary it is the UI-side derived representation
of a cell: visibility, collapse state, input text; the fields are the ones the
two controllers in the sources read and write. -/
structure ICellViewModel where
  cell : ICell
  editable : Bool
  directInput : Bool
  inputBlockShow : Bool
  inputBlockOpen : Bool
  inputBlockCollapseNeeded : Bool
  inputBlockText : String
deriving DecidableEq, Repr, Inhabited

/-- IMainState restricted to the fields the claims touch: the cell view-model
list, the undo and redo stacks of cell-list snapshots, and the bookkeeping
fields the modelled operations assign (skipNextScroll, currentExecutionCount,
busy, submittedText, dirty). -/
structure IMainState where
  cellVMs : List ICellViewModel
  undoStack : List (List ICellViewModel)
  redoStack : List (List ICellViewModel)
  skipNextScroll : Bool
  currentExecutionCount : Nat
  busy : Bool
  submittedText : Bool
  dirty : Bool
deriving DecidableEq, Repr, Inhabited

/-- `private stackLimit = 10` of MainStateController. -/
def stackLimit : Nat := 10

/-- `MainStateController.pushStack`: slice the stack to the first
`min(stack.length, stackLimit)` entries, then append the new snapshot. -/
def pushStack (stack : List (List ICellViewModel)) (cells : List ICellViewModel) :
    List (List ICellViewModel) :=
  let slicedUndo := stack.take (min stack.length stackLimit)
  slicedUndo ++ [cells]

/-- Messages the controller sends through the post office; only the ones the
modelled operations emit are represented, with the payloads the claims need. -/
inductive SentMessage where
  | deleteCellMsg
  | removeCellMsg (id : String)
deriving DecidableEq, Repr

/-- `MainStateController.undo`: the new cell list is `undoStack[length-1]`
(JS indexing; `[]` stands for the out-of-range access on an empty stack, which
no claim exercises), the new undo stack is `slice(0, length-1)`, and the old
cell list is pushed on the redo stack.  The Undo/SendInfo post-office sends do
not touch the state and are not represented. -/
def undo (s : IMainState) : IMainState :=
  { s with
    cellVMs := s.undoStack.getD (s.undoStack.length - 1) []
    undoStack := s.undoStack.take (s.undoStack.length - 1)
    redoStack := pushStack s.redoStack s.cellVMs
    skipNextScroll := true }

/-- `MainStateController.redo`: symmetric to `undo` on the redo stack. -/
def redo (s : IMainState) : IMainState :=
  { s with
    cellVMs := s.redoStack.getD (s.redoStack.length - 1) []
    redoStack := s.redoStack.take (s.redoStack.length - 1)
    undoStack := pushStack s.undoStack s.cellVMs
    skipNextScroll := true }

/-- `MainStateController.deleteCell`: if some view-model has the given cell id,
send DeleteCell and RemoveCell, drop every view-model with that id and push the
old list on the undo stack; otherwise do nothing. -/
def deleteCell (s : IMainState) (cellId : String) : IMainState × List SentMessage :=
  match s.cellVMs.find? (fun c => c.cell.id == cellId) with
  | some cellVM =>
      ({ s with
          cellVMs := s.cellVMs.filter (fun c => c.cell.id != cellId)
          undoStack := pushStack s.undoStack s.cellVMs
          skipNextScroll := true },
        [SentMessage.deleteCellMsg, SentMessage.removeCellMsg cellVM.cell.id])
  | none => (s, [])

section Stacks

/-- A list indexed at `length - 1` with JS semantics is its last element. -/
theorem getD_length_sub_one (l : List (List ICellViewModel)) (h : l ≠ []) :
    l.getD (l.length - 1) [] = l.getLast h := by
  have hlt : l.length - 1 < l.length := by
    cases l with
    | nil => exact absurd rfl h
    | cons a t => simp
  rw [List.getD_eq_getElem?_getD, List.getElem?_eq_getElem hlt]
  simp [List.getLast_eq_getElem]

/-- `slice(0, length - 1)` drops exactly the last element. -/
theorem take_length_sub_one (l : List (List ICellViewModel)) :
    l.take (l.length - 1) = l.dropLast :=
  (List.dropLast_eq_take l).symm

/-- When the stack is within the limit, `pushStack` is a plain append. -/
theorem pushStack_of_le (stack : List (List ICellViewModel))
    (cells : List ICellViewModel) (h : stack.length ≤ stackLimit) :
    pushStack stack cells = stack ++ [cells] := by
  unfold pushStack
  rw [min_eq_left h, List.take_length]

/-- `pushStack` never returns more than `stackLimit + 1` snapshots. -/
theorem pushStack_length_le (stack : List (List ICellViewModel))
    (cells : List ICellViewModel) :
    (pushStack stack cells).length ≤ stackLimit + 1 := by
  unfold pushStack
  simp only [List.length_append, List.length_take, List.length_cons,
    List.length_nil]
  omega

end Stacks

/-- C1: for every controller state with a non-empty undo stack, `undo` makes
the last undo-stack snapshot current, removes it from the undo stack, and
pushes (via `pushStack`) the previously current cell list onto the redo stack;
`redo` does the symmetric operation on the redo stack. -/
theorem undo_redo_pops_and_pushes (s : IMainState) :
    (∀ h : s.undoStack ≠ [],
      (undo s).cellVMs = s.undoStack.getLast h ∧
      (undo s).undoStack = s.undoStack.dropLast ∧
      (undo s).redoStack = pushStack s.redoStack s.cellVMs) ∧
    (∀ h : s.redoStack ≠ [],
      (redo s).cellVMs = s.redoStack.getLast h ∧
      (redo s).redoStack = s.redoStack.dropLast ∧
      (redo s).undoStack = pushStack s.undoStack s.cellVMs) := by
  constructor
  · intro h
    refine ⟨?_, ?_, rfl⟩
    · exact getD_length_sub_one s.undoStack h
    · exact take_length_sub_one s.undoStack
  · intro h
    refine ⟨?_, ?_, rfl⟩
    · exact getD_length_sub_one s.redoStack h
    · exact take_length_sub_one s.redoStack

/-- A concrete one-cell state used by the witnesses. -/
def sampleCell : ICell :=
  { id := "a", file := "foo.py", line := 0, state := CellState.finished,
    data := { cell_type := "code", source := "x=1", execution_count := some 1 } }

/-- A concrete view-model for `sampleCell`. -/
def sampleVM : ICellViewModel :=
  { cell := sampleCell, editable := false, directInput := false,
    inputBlockShow := true, inputBlockOpen := true,
    inputBlockCollapseNeeded := true, inputBlockText := "x=1" }

/-- A concrete controller state with one snapshot on each stack. -/
def sampleState : IMainState :=
  { cellVMs := [sampleVM], undoStack := [[]], redoStack := [[sampleVM]],
    skipNextScroll := false, currentExecutionCount := 1, busy := false,
    submittedText := false, dirty := false }

/-- Witness for C1 at `sampleState`. -/
theorem undo_redo_pops_and_pushes_witness :
    (undo sampleState).cellVMs = sampleState.undoStack.getLast (by decide) ∧
    (undo sampleState).undoStack = sampleState.undoStack.dropLast ∧
    (undo sampleState).redoStack = pushStack sampleState.redoStack sampleState.cellVMs :=
  (undo_redo_pops_and_pushes sampleState).1 (by decide)

/-- C2: with a non-empty undo stack of at most 11 snapshots and a redo stack
of at most 10 snapshots, `redo` after `undo` restores the cell list and both
stacks exactly. -/
theorem undo_then_redo_roundtrip (s : IMainState) (h : s.undoStack ≠ [])
    (hu : s.undoStack.length ≤ 11) (hr : s.redoStack.length ≤ 10) :
    (redo (undo s)).cellVMs = s.cellVMs ∧
    (redo (undo s)).undoStack = s.undoStack ∧
    (redo (undo s)).redoStack = s.redoStack := by
  have hredo : (undo s).redoStack = s.redoStack ++ [s.cellVMs] := by
    show pushStack s.redoStack s.cellVMs = _
    exact pushStack_of_le _ _ hr
  have hcells : (undo s).cellVMs = s.undoStack.getLast h :=
    ((undo_redo_pops_and_pushes s).1 h).1
  have hundo : (undo s).undoStack = s.undoStack.dropLast :=
    ((undo_redo_pops_and_pushes s).1 h).2.1
  refine ⟨?_, ?_, ?_⟩
  · show (undo s).redoStack.getD ((undo s).redoStack.length - 1) [] = s.cellVMs
    rw [hredo]
    have hne : s.redoStack ++ [s.cellVMs] ≠ [] := by simp
    rw [getD_length_sub_one _ hne]
    simp [List.getLast_append]
  · show pushStack (undo s).undoStack (undo s).cellVMs = s.undoStack
    rw [hcells, hundo, pushStack_of_le]
    · exact List.dropLast_append_getLast h
    · have := List.length_dropLast s.undoStack
      unfold stackLimit
      omega
  · show (undo s).redoStack.take ((undo s).redoStack.length - 1) = s.redoStack
    rw [hredo, take_length_sub_one]
    simp
/-- Witness for C2 at `sampleState`. -/
theorem undo_then_redo_roundtrip_witness :
    (redo (undo sampleState)).cellVMs = sampleState.cellVMs ∧
    (redo (undo sampleState)).undoStack = sampleState.undoStack ∧
    (redo (undo sampleState)).redoStack = sampleState.redoStack :=
  undo_then_redo_roundtrip sampleState (by decide) (by decide) (by decide)

/-- C3: `deleteCell` with an id present in the list removes every view-model
with that id, pushes the old list on the undo stack, leaves the redo stack
alone and sends DeleteCell and RemoveCell; with an absent id it leaves the
whole state unchanged and sends nothing. -/
theorem deleteCell_spec (s : IMainState) (cellId : String) :
    ((∃ vm ∈ s.cellVMs, vm.cell.id = cellId) →
      (deleteCell s cellId).1.cellVMs =
        s.cellVMs.filter (fun c => c.cell.id != cellId) ∧
      (deleteCell s cellId).1.undoStack = pushStack s.undoStack s.cellVMs ∧
      (deleteCell s cellId).1.redoStack = s.redoStack ∧
      (deleteCell s cellId).2 ≠ []) ∧
    ((∀ vm ∈ s.cellVMs, vm.cell.id ≠ cellId) →
      (deleteCell s cellId).1 = s ∧ (deleteCell s cellId).2 = []) := by
  constructor
  · rintro ⟨vm, hmem, hid⟩
    have hsome : (s.cellVMs.find? (fun c => c.cell.id == cellId)).isSome := by
      rw [List.find?_isSome]
      exact ⟨vm, hmem, by simpa using hid⟩
    obtain ⟨w, hw⟩ := Option.isSome_iff_exists.mp hsome
    simp [deleteCell, hw]
  · intro habs
    have hnone : s.cellVMs.find? (fun c => c.cell.id == cellId) = none := by
      rw [List.find?_eq_none]
      intro x hx
      simpa using habs x hx
    simp [deleteCell, hnone]

/-- Witness for C3: deleting the present id "a" from `sampleState`. -/
theorem deleteCell_spec_witness :
    (deleteCell sampleState "a").1.cellVMs =
      sampleState.cellVMs.filter (fun c => c.cell.id != "a") ∧
    (deleteCell sampleState "a").1.undoStack =
      pushStack sampleState.undoStack sampleState.cellVMs ∧
    (deleteCell sampleState "a").1.redoStack = sampleState.redoStack ∧
    (deleteCell sampleState "a").2 ≠ [] :=
  (deleteCell_spec sampleState "a").1 ⟨sampleVM, by decide, by decide⟩

/-- The execution-count update in `updateOrAdd`: the raw nbformat value is
tested for JS truthiness (null and the number 0 are falsy), and only a truthy
value is parsed and maxed into the current count. -/
def newExecutionCount (current : Nat) (ec : Option Nat) : Nat :=
  match ec with
  | some n => if n ≠ 0 then max current n else current
  | none => current

/-- The `findIndex` predicate of `updateOrAdd`: id, line and file all match. -/
def cellMatches (c : ICellViewModel) (cell : ICell) : Bool :=
  c.cell.id == cell.id && c.cell.line == cell.line && c.cell.file == cell.file

/-- `MainStateController.addCell`: append the freshly created view-model and
push the old list on the undo stack.  The view-model construction
(`createCellVM` lives in mainState.ts, outside the sources, composed with
`alterCellVM` under the current settings) is passed in as `cellVM`; no claim
depends on its fields. -/
def addCell (s : IMainState) (cellVM : ICellViewModel) : IMainState :=
  { s with
    cellVMs := s.cellVMs ++ [cellVM]
    undoStack := pushStack s.undoStack s.cellVMs
    redoStack := s.redoStack
    skipNextScroll := false }

/-- `MainStateController.updateOrAdd`: if a view-model matches on id, line and
file, replace its cell and fold the incoming execution count into
`currentExecutionCount`; otherwise add the cell when `allowAdd`. -/
def updateOrAdd (s : IMainState) (cell : ICell) (allowAdd : Bool)
    (newVM : ICellViewModel) : IMainState :=
  match s.cellVMs.findIdx? (fun c => cellMatches c cell) with
  | some index =>
      { s with
        cellVMs := s.cellVMs.mapIdx
          (fun j vm => if j = index then { vm with cell := cell } else vm)
        currentExecutionCount :=
          newExecutionCount s.currentExecutionCount cell.data.execution_count }
  | none => if allowAdd then addCell s newVM else s

/-- `MainStateController.isCellSupported`: in test mode, cells of the fake
type "messages" are skipped. -/
def isCellSupported (testMode : Bool) (cell : ICell) : Bool :=
  !testMode || cell.data.cell_type != "messages"

/-- `MainStateController.startCell` on a StartCell event payload. -/
def startCell (testMode : Bool) (s : IMainState) (cell : ICell)
    (newVM : ICellViewModel) : IMainState :=
  if isCellSupported testMode cell then updateOrAdd s cell true newVM else s

/-- `MainStateController.finishCell` on a FinishCell event payload (the
SendInfo post-office send does not touch the state). -/
def finishCell (testMode : Bool) (s : IMainState) (cell : ICell)
    (newVM : ICellViewModel) : IMainState :=
  if isCellSupported testMode cell then updateOrAdd s cell true newVM else s

/-- `MainStateController.updateCell` on an UpdateCell event payload:
`updateOrAdd` without adding. -/
def updateCell (testMode : Bool) (s : IMainState) (cell : ICell)
    (newVM : ICellViewModel) : IMainState :=
  if isCellSupported testMode cell then updateOrAdd s cell false newVM else s

/-- `newExecutionCount` is exactly max with the value, absent read as 0. -/
theorem newExecutionCount_eq_max (current : Nat) (ec : Option Nat) :
    newExecutionCount current ec = max current (ec.getD 0) := by
  cases ec with
  | none => simp [newExecutionCount]
  | some n =>
      by_cases hn : n = 0
      · simp [newExecutionCount, hn]
      · simp [newExecutionCount, hn]

/-- `updateOrAdd` never decreases the count, and never changes it when no
view-model matches. -/
theorem updateOrAdd_count (s : IMainState) (cell : ICell) (allowAdd : Bool)
    (newVM : ICellViewModel) :
    s.currentExecutionCount ≤ (updateOrAdd s cell allowAdd newVM).currentExecutionCount ∧
    ((∀ c ∈ s.cellVMs, cellMatches c cell = false) →
      (updateOrAdd s cell allowAdd newVM).currentExecutionCount =
        s.currentExecutionCount) := by
  constructor
  · unfold updateOrAdd
    cases hidx : s.cellVMs.findIdx? (fun c => cellMatches c cell) with
    | some index => simp [newExecutionCount_eq_max]
    | none =>
        cases allowAdd with
        | false => simp
        | true => simp [addCell]
  · intro habs
    have hnone : s.cellVMs.findIdx? (fun c => cellMatches c cell) = none :=
      List.findIdx?_eq_none_iff.mpr habs
    unfold updateOrAdd
    rw [hnone]
    cases allowAdd with
    | false => simp
    | true => simp [addCell]

/-- When a view-model matches the incoming cell, `updateOrAdd` maxes the
incoming execution count (absent read as 0) into the current count. -/
theorem updateOrAdd_count_of_match (s : IMainState) (cell : ICell)
    (allowAdd : Bool) (newVM : ICellViewModel)
    (hex : ∃ c ∈ s.cellVMs, cellMatches c cell = true) :
    (updateOrAdd s cell allowAdd newVM).currentExecutionCount =
      max s.currentExecutionCount (cell.data.execution_count.getD 0) := by
  cases hidx : s.cellVMs.findIdx? (fun c => cellMatches c cell) with
  | none =>
      obtain ⟨c, hc, hmatch⟩ := hex
      have := List.findIdx?_eq_none_iff.mp hidx c hc
      simp [hmatch] at this
  | some index =>
      unfold updateOrAdd
      rw [hidx]
      simp [newExecutionCount_eq_max]

/-- A test-mode-only cell of the fake type "messages", present in the list. -/
def msgCell : ICell :=
  { id := "m", file := "f", line := 0, state := CellState.finished,
    data := { cell_type := "messages", source := "", execution_count := some 5 } }

/-- View-model wrapping `msgCell`. -/
def msgVM : ICellViewModel :=
  { cell := msgCell, editable := false, directInput := false,
    inputBlockShow := true, inputBlockOpen := true,
    inputBlockCollapseNeeded := false, inputBlockText := "" }

/-- State holding `msgVM` with execution count 0. -/
def msgState : IMainState :=
  { cellVMs := [msgVM], undoStack := [], redoStack := [],
    skipNextScroll := false, currentExecutionCount := 0, busy := false,
    submittedText := false, dirty := false }

/-- Counterexample to C4 as stated: in test mode a StartCell event for an
existing cell of type "messages" with execution_count 5 is skipped by
`isCellSupported`, so the count stays 0 instead of max(0, 5) = 5. -/
theorem startCell_count_testMode_cex :
    (∃ c ∈ msgState.cellVMs, cellMatches c msgCell = true) ∧
    (startCell true msgState msgCell msgVM).currentExecutionCount ≠
      max msgState.currentExecutionCount (msgCell.data.execution_count.getD 0) := by
  decide

/-- C4 (amended): handling a StartCell, FinishCell or UpdateCell event never
decreases currentExecutionCount; when the cell is supported (not: test mode
with cell_type "messages") and already exists in the list, the new count is
the maximum of the old count and the cell's execution_count (absent read as
0); when the cell does not exist, the count is unchanged. -/
theorem execution_count_monotone (testMode : Bool) (s : IMainState)
    (cell : ICell) (newVM : ICellViewModel) :
    (s.currentExecutionCount ≤ (startCell testMode s cell newVM).currentExecutionCount ∧
     s.currentExecutionCount ≤ (finishCell testMode s cell newVM).currentExecutionCount ∧
     s.currentExecutionCount ≤ (updateCell testMode s cell newVM).currentExecutionCount) ∧
    (isCellSupported testMode cell = true →
      (∃ c ∈ s.cellVMs, cellMatches c cell = true) →
      ((startCell testMode s cell newVM).currentExecutionCount =
          max s.currentExecutionCount (cell.data.execution_count.getD 0) ∧
       (finishCell testMode s cell newVM).currentExecutionCount =
          max s.currentExecutionCount (cell.data.execution_count.getD 0) ∧
       (updateCell testMode s cell newVM).currentExecutionCount =
          max s.currentExecutionCount (cell.data.execution_count.getD 0))) ∧
    ((∀ c ∈ s.cellVMs, cellMatches c cell = false) →
      ((startCell testMode s cell newVM).currentExecutionCount =
          s.currentExecutionCount ∧
       (finishCell testMode s cell newVM).currentExecutionCount =
          s.currentExecutionCount ∧
       (updateCell testMode s cell newVM).currentExecutionCount =
          s.currentExecutionCount)) := by
  have hmono : ∀ allowAdd,
      s.currentExecutionCount ≤
        (if isCellSupported testMode cell
          then updateOrAdd s cell allowAdd newVM else s).currentExecutionCount := by
    intro allowAdd
    by_cases hsupp : isCellSupported testMode cell
    · simpa [hsupp] using (updateOrAdd_count s cell allowAdd newVM).1
    · simp [hsupp]
  have habs : ∀ allowAdd, (∀ c ∈ s.cellVMs, cellMatches c cell = false) →
      (if isCellSupported testMode cell
        then updateOrAdd s cell allowAdd newVM else s).currentExecutionCount =
        s.currentExecutionCount := by
    intro allowAdd h
    by_cases hsupp : isCellSupported testMode cell
    · simpa [hsupp] using (updateOrAdd_count s cell allowAdd newVM).2 h
    · simp [hsupp]
  refine ⟨⟨hmono true, hmono true, hmono false⟩, ?_, ?_⟩
  · intro hsupp hex
    refine ⟨?_, ?_, ?_⟩ <;>
      simp only [startCell, finishCell, updateCell, hsupp, if_true] <;>
      exact updateOrAdd_count_of_match s cell _ newVM hex
  · intro h
    exact ⟨habs true h, habs true h, habs false h⟩

/-- Witness for C4 (amended) at `sampleState` outside test mode. -/
theorem execution_count_monotone_witness :
    (startCell false sampleState sampleCell sampleVM).currentExecutionCount =
      max sampleState.currentExecutionCount
        (sampleCell.data.execution_count.getD 0) :=
  ((execution_count_monotone false sampleState sampleCell sampleVM).2.1
    (by decide) ⟨sampleVM, by decide, by decide⟩).1

/-- The collapsed display text built by `alterCellVM`: when the extracted text
is non-empty, its first line (the characters before the first newline, as JS
split with limit 1), sliced to at most 255 characters, with "..." appended;
the empty text is kept as is. -/
def collapseText (newText : String) : String :=
  if newText.length > 0 then
    String.mk ((newText.data.takeWhile (fun ch => ch != '\n')).take 255) ++ "..."
  else newText

/-- `MainStateController.alterCellVM`.  `extract` stands for
`extractInputText` (mainState.ts, outside the sources); the controller always
calls it on the view-model's cell with the current settings.  The second
conditional tests the ORIGINAL `inputBlockShow`, exactly as the source does,
even when the first conditional just changed it to `visible`. -/
def alterCellVM (extract : ICell → String) (cellVM : ICellViewModel)
    (visible expanded : Bool) : ICellViewModel :=
  if cellVM.cell.data.cell_type = "code" then
    if cellVM.inputBlockShow = visible ∧ cellVM.inputBlockOpen = expanded then
      cellVM
    else
      let newShow :=
        if cellVM.inputBlockShow ≠ visible then visible else cellVM.inputBlockShow
      if cellVM.inputBlockOpen ≠ expanded ∧
          cellVM.inputBlockCollapseNeeded = true ∧ cellVM.inputBlockShow = true then
        if expanded then
          { cellVM with inputBlockShow := newShow, inputBlockOpen := true,
                        inputBlockText := extract cellVM.cell }
        else
          { cellVM with inputBlockShow := newShow, inputBlockOpen := false,
                        inputBlockText := collapseText (extract cellVM.cell) }
      else
        { cellVM with inputBlockShow := newShow }
  else cellVM

/-- A shown, collapse-needed, already-collapsed code view-model whose display
text is not the collapsed form of the extracted text. -/
def staleVM : ICellViewModel :=
  { cell := sampleCell, editable := false, directInput := false,
    inputBlockShow := true, inputBlockOpen := false,
    inputBlockCollapseNeeded := true, inputBlockText := "orig" }

set_option maxRecDepth 8192 in
/-- Counterexample to C5 as stated: for a shown, collapse-needed code cell
that is already collapsed, `alterCellVM` with expanded = false returns early
and leaves the stale display text, instead of setting the truncated first line
of the extracted text. -/
theorem alterCellVM_collapse_cex :
    staleVM.cell.data.cell_type = "code" ∧
    staleVM.inputBlockShow = true ∧
    staleVM.inputBlockCollapseNeeded = true ∧
    collapseText ((fun _ => "line") staleVM.cell) = "line..." ∧
    (alterCellVM (fun _ => "line") staleVM true false).inputBlockText ≠
      "line..." := by
  decide

/-- C5 (amended): for a shown, collapse-needed code view-model whose collapse
state differs from the request, `alterCellVM` with expanded = false sets the
display text to the first line of the extracted text truncated to at most 255
characters with "..." appended (empty extracted text stays empty), and with
expanded = true restores the full extracted text; non-code view-models are
returned unchanged. -/
theorem alterCellVM_collapse_expand (extract : ICell → String)
    (vm : ICellViewModel) (visible : Bool) :
    (vm.cell.data.cell_type = "code" → vm.inputBlockShow = true →
      vm.inputBlockCollapseNeeded = true →
      ((vm.inputBlockOpen = true →
        (alterCellVM extract vm visible false).inputBlockText =
          (if extract vm.cell = "" then ""
            else String.mk
              (((extract vm.cell).data.takeWhile (fun ch => ch != '\n')).take 255)
              ++ "...") ∧
        (alterCellVM extract vm visible false).inputBlockOpen = false) ∧
      (vm.inputBlockOpen = false →
        (alterCellVM extract vm visible true).inputBlockText = extract vm.cell ∧
        (alterCellVM extract vm visible true).inputBlockOpen = true))) ∧
    (vm.cell.data.cell_type ≠ "code" →
      ∀ expanded, alterCellVM extract vm visible expanded = vm) := by
  constructor
  · intro htype hshow hneed
    have hcollapse : collapseText (extract vm.cell) =
        (if extract vm.cell = "" then ""
          else String.mk
            (((extract vm.cell).data.takeWhile (fun ch => ch != '\n')).take 255)
            ++ "...") := by
      unfold collapseText
      rcases eq_or_ne (extract vm.cell) "" with he | he
      · rw [he]
        simp
      · have hpos : (extract vm.cell).length > 0 := by
          rcases hs : extract vm.cell with ⟨data⟩
          rw [hs] at he
          cases data with
          | nil => exact absurd rfl he
          | cons a t => simp [String.length]
        rw [if_pos hpos, if_neg he]
    constructor
    · intro hopen
      rw [hcollapse.symm]
      constructor <;> simp [alterCellVM, htype, hshow, hneed, hopen]
    · intro hopen
      constructor <;> simp [alterCellVM, htype, hshow, hneed, hopen]
  · intro htype expanded
    simp [alterCellVM, htype]

/-- Witness for C5 (amended): collapsing the expanded `sampleVM`. -/
theorem alterCellVM_collapse_expand_witness :
    (alterCellVM (fun c => c.data.source) sampleVM true false).inputBlockText =
      (if (fun (c : ICell) => c.data.source) sampleVM.cell = "" then ""
        else String.mk ((((fun (c : ICell) => c.data.source) sampleVM.cell).data.takeWhile
          (fun ch => ch != '\n')).take 255) ++ "...") ∧
    (alterCellVM (fun c => c.data.source) sampleVM true false).inputBlockOpen = false :=
  ((alterCellVM_collapse_expand (fun c => c.data.source) sampleVM true).1
    (by decide) (by decide) (by decide)).1 (by decide)

/-- A hidden, collapsed, collapse-needed code view-model. -/
def hiddenVM : ICellViewModel :=
  { cell := sampleCell, editable := false, directInput := false,
    inputBlockShow := false, inputBlockOpen := false,
    inputBlockCollapseNeeded := true, inputBlockText := "x=1" }

/-- Counterexample to C8 as stated: `alterCellVM` is not idempotent.  Showing
and expanding `hiddenVM` flips only its visibility (the collapse-state branch
tests the pre-update `inputBlockShow`), so a second application additionally
opens the input block. -/
theorem alterCellVM_not_idempotent :
    alterCellVM (fun _ => "x")
        (alterCellVM (fun _ => "x") hiddenVM true true) true true ≠
      alterCellVM (fun _ => "x") hiddenVM true true := by
  decide

/-- C8 (amended): `alterCellVM` is idempotent except in the single situation
of the counterexample: a collapse-needed code view-model that is hidden and is
being made visible while the requested expand state differs from its current
one. -/
theorem alterCellVM_idempotent (extract : ICell → String) (vm : ICellViewModel)
    (visible expanded : Bool)
    (h : ¬(vm.cell.data.cell_type = "code" ∧ vm.inputBlockCollapseNeeded = true ∧
          vm.inputBlockShow = false ∧ visible = true ∧
          vm.inputBlockOpen ≠ expanded)) :
    alterCellVM extract (alterCellVM extract vm visible expanded) visible expanded =
      alterCellVM extract vm visible expanded := by
  by_cases htype : vm.cell.data.cell_type = "code"
  · rcases vm with ⟨cell, ed, di, ibShow, ibOpen, ibNeed, ibText⟩
    cases ibShow <;> cases ibOpen <;> cases ibNeed <;>
      cases visible <;> cases expanded <;> simp_all [alterCellVM]
  · simp [alterCellVM, htype]

/-- Witness for C8 (amended) at `sampleVM`. -/
theorem alterCellVM_idempotent_witness :
    alterCellVM (fun c => c.data.source)
        (alterCellVM (fun c => c.data.source) sampleVM true false) true false =
      alterCellVM (fun c => c.data.source) sampleVM true false :=
  alterCellVM_idempotent (fun c => c.data.source) sampleVM true false (by decide)

/-- The message cases `MainStateController.handleMessage` switches on
(InteractiveWindowMessages and CssMessages enum members, which are distinct
strings); `other` stands for any message string outside them. -/
inductive WinMsg where
  | startCellMsg
  | finishCellMsg
  | updateCellMsg
  | getAllCellsMsg
  | expandAllMsg
  | collapseAllMsg
  | deleteAllCellsMsg
  | redoMsg
  | undoMsg
  | startProgress
  | stopProgress
  | updateSettingsMsg
  | activateMsg
  | getVariablesResponse
  | getVariableValueResponse
  | loadOnigasmAssemblyResponse
  | loadTmLanguageResponse
  | restartKernel
  | startDebugging
  | stopDebugging
  | loadAllCellsMsg
  | getCssResponse
  | getMonacoThemeResponse
  | scrollToCellMsg
  | notebookDirty
  | notebookClean
  | other (msg : String)
deriving DecidableEq, Repr

/-- The return value of `MainStateController.handleMessage`: the first nine
cases return true immediately; every other case (and the default) breaks out
of the switch and falls through to the final `return false`. -/
def handleMessage : WinMsg → Bool
  | .startCellMsg => true
  | .finishCellMsg => true
  | .updateCellMsg => true
  | .getAllCellsMsg => true
  | .expandAllMsg => true
  | .collapseAllMsg => true
  | .deleteAllCellsMsg => true
  | .redoMsg => true
  | .undoMsg => true
  | .startProgress => false
  | .stopProgress => false
  | .updateSettingsMsg => false
  | .activateMsg => false
  | .getVariablesResponse => false
  | .getVariableValueResponse => false
  | .loadOnigasmAssemblyResponse => false
  | .loadTmLanguageResponse => false
  | .restartKernel => false
  | .startDebugging => false
  | .stopDebugging => false
  | .loadAllCellsMsg => false
  | .getCssResponse => false
  | .getMonacoThemeResponse => false
  | .scrollToCellMsg => false
  | .notebookDirty => false
  | .notebookClean => false
  | .other _ => false

/-- `MainStateController.stopBusy`. -/
def stopBusy (s : IMainState) : IMainState :=
  if s.busy then { s with busy := false } else s

/-- `NativeEditorStateController.handleMessage`: first obtain the base
dispatcher result, then run the native-only switch (LoadAllCells stops the
busy indicator, NotebookDirty / NotebookClean set the dirty flag), and return
the unmodified base result.  Only the native-only state effects are modelled;
the base dispatcher's state effects live in the dedicated operation
definitions. -/
def nativeHandleMessage (s : IMainState) (msg : WinMsg) : IMainState × Bool :=
  let result := handleMessage msg
  let s2 :=
    match msg with
    | .loadAllCellsMsg => stopBusy s
    | .notebookDirty => { s with dirty := true }
    | .notebookClean => { s with dirty := false }
    | _ => s
  (s2, result)

/-- C6: `handleMessage` returns true exactly for StartCell, FinishCell,
UpdateCell, GetAllCells, ExpandAll, CollapseAll, DeleteAllCells, Redo and
Undo, and false for every other message; the native dispatcher returns the
same value as the base one for every message and every state. -/
theorem handleMessage_true_iff (m : WinMsg) (s : IMainState) :
    (handleMessage m = true ↔
      (m = WinMsg.startCellMsg ∨ m = WinMsg.finishCellMsg ∨
       m = WinMsg.updateCellMsg ∨ m = WinMsg.getAllCellsMsg ∨
       m = WinMsg.expandAllMsg ∨ m = WinMsg.collapseAllMsg ∨
       m = WinMsg.deleteAllCellsMsg ∨ m = WinMsg.redoMsg ∨
       m = WinMsg.undoMsg)) ∧
    (nativeHandleMessage s m).2 = handleMessage m := by
  cases m <;> simp [handleMessage, nativeHandleMessage]

/-- vscode Uri restricted to the accessor `IpynbEditor.load` uses. -/
structure Uri where
  fsPath : String
deriving DecidableEq, Repr

/-- Modelled from Node path.basename as `load` uses it (POSIX separators): the
characters after the last "/" of the path. -/
def basename (p : String) : String :=
  String.mk ((p.data.reverse.takeWhile (fun ch => ch != '/')).reverse)

/-- Messages `IpynbEditor` posts to the webview; only the one `load` sends is
represented. -/
inductive EditorMsg where
  | loadAllCells (cells : List ICell)
deriving DecidableEq, Repr

/-- The `IpynbEditor` fields `load` touches: `_file`, the panel title (set via
`InteractiveBase.setTitle`, which the spec describes as part of the host-side
editor lifecycle and is modelled as storing the title), and the list of posted
webview messages. -/
structure IpynbEditorState where
  file : Uri
  title : String
  posted : List EditorMsg
deriving DecidableEq, Repr

/-- `IpynbEditor.load`: store the uri, set the title to the basename of its
filesystem path, import the cells from the content (`importCells` is the
injected INotebookImporter, outside the sources, hence a parameter) and post
them in a LoadAllCells message. -/
def load (importCells : String → List ICell) (ed : IpynbEditorState)
    (content : String) (file : Uri) : IpynbEditorState :=
  { ed with
    file := file
    title := basename file.fsPath
    posted := ed.posted ++ [EditorMsg.loadAllCells (importCells content)] }

/-- C7: after `load` resolves, the `file` property returns the given uri, the
title is the basename of its filesystem path, and exactly one LoadAllCells
message carrying exactly the imported cells has been posted. -/
theorem load_spec (importCells : String → List ICell) (ed : IpynbEditorState)
    (content : String) (file : Uri) :
    (load importCells ed content file).file = file ∧
    (load importCells ed content file).title = basename file.fsPath ∧
    (load importCells ed content file).posted =
      ed.posted ++ [EditorMsg.loadAllCells (importCells content)] :=
  ⟨rfl, rfl, rfl⟩

/-- `MainStateController.clearAllSilent`: empty the cell list, push the old
list on the undo stack, clear the busy flag. -/
def clearAllSilent (s : IMainState) : IMainState :=
  { s with
    cellVMs := []
    undoStack := pushStack s.undoStack s.cellVMs
    skipNextScroll := true
    busy := false }

/-- `MainStateController.submitInput`.  When the input cell is the edit cell,
append the recreated cell (built by createCellVM / alterCellVM / uuid, so
passed in as `newCell`) and push the old list on the undo stack; otherwise the
source mutates the existing cell in place and replaces `cellVMs` by a shallow
copy of the same list, leaving both stacks untouched. -/
def submitInput (s : IMainState) (isEditCell : Bool)
    (newCell : ICellViewModel) : IMainState :=
  if isEditCell then
    { s with
      cellVMs := s.cellVMs ++ [newCell]
      undoStack := pushStack s.undoStack s.cellVMs
      redoStack := s.redoStack
      skipNextScroll := false
      submittedText := true }
  else s

/-- `MainStateController.alterAllCellVMs`. -/
def alterAllCellVMs (extract : ICell → String) (s : IMainState)
    (visible expanded : Bool) : IMainState :=
  { s with
    skipNextScroll := true
    cellVMs := s.cellVMs.map (fun vm => alterCellVM extract vm visible expanded) }

/-- `MainStateController.collapseAllSilent`: only acts when the
showCellInputCode setting is on. -/
def collapseAllSilent (extract : ICell → String) (showCellInputCode : Bool)
    (s : IMainState) : IMainState :=
  if showCellInputCode then alterAllCellVMs extract s true false else s

/-- `MainStateController.expandAllSilent`. -/
def expandAllSilent (extract : ICell → String) (showCellInputCode : Bool)
    (s : IMainState) : IMainState :=
  if showCellInputCode then alterAllCellVMs extract s true true else s

/-- `MainStateController.inputBlockToggled`: toggle the collapse state of the
cell with the given id, when present. -/
def inputBlockToggled (extract : ICell → String) (s : IMainState)
    (id : String) : IMainState :=
  match s.cellVMs.findIdx? (fun value => value.cell.id == id) with
  | some i =>
      { s with
        skipNextScroll := true
        cellVMs := s.cellVMs.mapIdx (fun j vm =>
          if j = i then alterCellVM extract vm true (!vm.inputBlockOpen) else vm) }
  | none => s

/-- One state transition of the controller: any of the modelled operations,
with arbitrary parameters. -/
inductive Step : IMainState → IMainState → Prop where
  | addCellStep (s : IMainState) (vm : ICellViewModel) : Step s (addCell s vm)
  | deleteCellStep (s : IMainState) (cellId : String) :
      Step s (deleteCell s cellId).1
  | submitInputStep (s : IMainState) (isEditCell : Bool)
      (newCell : ICellViewModel) : Step s (submitInput s isEditCell newCell)
  | clearAllStep (s : IMainState) : Step s (clearAllSilent s)
  | undoStep (s : IMainState) : Step s (undo s)
  | redoStep (s : IMainState) : Step s (redo s)
  | startCellStep (testMode : Bool) (s : IMainState) (cell : ICell)
      (newVM : ICellViewModel) : Step s (startCell testMode s cell newVM)
  | finishCellStep (testMode : Bool) (s : IMainState) (cell : ICell)
      (newVM : ICellViewModel) : Step s (finishCell testMode s cell newVM)
  | updateCellStep (testMode : Bool) (s : IMainState) (cell : ICell)
      (newVM : ICellViewModel) : Step s (updateCell testMode s cell newVM)
  | collapseAllStep (extract : ICell → String) (sc : Bool) (s : IMainState) :
      Step s (collapseAllSilent extract sc s)
  | expandAllStep (extract : ICell → String) (sc : Bool) (s : IMainState) :
      Step s (expandAllSilent extract sc s)
  | toggleStep (extract : ICell → String) (s : IMainState) (id : String) :
      Step s (inputBlockToggled extract s id)

/-- Both stacks hold at most stackLimit + 1 = 11 snapshots. -/
def StacksBounded (s : IMainState) : Prop :=
  s.undoStack.length ≤ stackLimit + 1 ∧ s.redoStack.length ≤ stackLimit + 1

/-- `updateOrAdd` keeps both stack bounds. -/
theorem updateOrAdd_bounded (s : IMainState) (cell : ICell) (allowAdd : Bool)
    (newVM : ICellViewModel) (hb : StacksBounded s) :
    StacksBounded (updateOrAdd s cell allowAdd newVM) := by
  unfold updateOrAdd
  cases s.cellVMs.findIdx? (fun c => cellMatches c cell) with
  | some index => exact hb
  | none =>
      cases allowAdd with
      | false => exact hb
      | true => exact ⟨pushStack_length_le _ _, hb.2⟩

/-- Every modelled operation keeps both stack bounds. -/
theorem step_preserves_bounded (s s2 : IMainState) (hb : StacksBounded s)
    (hs : Step s s2) : StacksBounded s2 := by
  obtain ⟨hu, hr⟩ := hb
  cases hs with
  | addCellStep s vm => exact ⟨pushStack_length_le _ _, hr⟩
  | deleteCellStep s cellId =>
      unfold deleteCell
      cases s.cellVMs.find? (fun c => c.cell.id == cellId) with
      | some vm => exact ⟨pushStack_length_le _ _, hr⟩
      | none => exact ⟨hu, hr⟩
  | submitInputStep s isEditCell newCell =>
      cases isEditCell with
      | false => exact ⟨hu, hr⟩
      | true => exact ⟨pushStack_length_le _ _, hr⟩
  | clearAllStep s => exact ⟨pushStack_length_le _ _, hr⟩
  | undoStep s =>
      refine ⟨?_, pushStack_length_le _ _⟩
      show (s.undoStack.take (s.undoStack.length - 1)).length ≤ stackLimit + 1
      rw [List.length_take]
      omega
  | redoStep s =>
      refine ⟨pushStack_length_le _ _, ?_⟩
      show (s.redoStack.take (s.redoStack.length - 1)).length ≤ stackLimit + 1
      rw [List.length_take]
      omega
  | startCellStep testMode s cell newVM =>
      unfold startCell
      by_cases hsupp : isCellSupported testMode cell
      · rw [if_pos hsupp]
        exact updateOrAdd_bounded s cell true newVM ⟨hu, hr⟩
      · rw [if_neg hsupp]
        exact ⟨hu, hr⟩
  | finishCellStep testMode s cell newVM =>
      unfold finishCell
      by_cases hsupp : isCellSupported testMode cell
      · rw [if_pos hsupp]
        exact updateOrAdd_bounded s cell true newVM ⟨hu, hr⟩
      · rw [if_neg hsupp]
        exact ⟨hu, hr⟩
  | updateCellStep testMode s cell newVM =>
      unfold updateCell
      by_cases hsupp : isCellSupported testMode cell
      · rw [if_pos hsupp]
        exact updateOrAdd_bounded s cell false newVM ⟨hu, hr⟩
      · rw [if_neg hsupp]
        exact ⟨hu, hr⟩
  | collapseAllStep extract sc s =>
      unfold collapseAllSilent alterAllCellVMs
      cases sc <;> exact ⟨hu, hr⟩
  | expandAllStep extract sc s =>
      unfold expandAllSilent alterAllCellVMs
      cases sc <;> exact ⟨hu, hr⟩
  | toggleStep extract s id =>
      unfold inputBlockToggled
      cases s.cellVMs.findIdx? (fun value => value.cell.id == id) with
      | some i => exact ⟨hu, hr⟩
      | none => exact ⟨hu, hr⟩

/-- A state is reachable when a chain of modelled operations leads to it. -/
def Reachable (s0 s : IMainState) : Prop :=
  Relation.ReflTransGen Step s0 s

/-- C9: `pushStack` keeps only the first min(length, 10) entries before
appending, and in every state reachable from an initial state with empty
stacks, each stack holds at most 11 snapshots. -/
theorem stacks_bounded_reachable :
    (∀ (stack : List (List ICellViewModel)) (cells : List ICellViewModel),
      pushStack stack cells =
        stack.take (min stack.length stackLimit) ++ [cells]) ∧
    (∀ s0 s : IMainState, s0.undoStack = [] → s0.redoStack = [] →
      Reachable s0 s →
      s.undoStack.length ≤ stackLimit + 1 ∧
      s.redoStack.length ≤ stackLimit + 1) := by
  refine ⟨fun _ _ => rfl, ?_⟩
  intro s0 s h0u h0r hreach
  induction hreach with
  | refl => constructor <;> simp [h0u, h0r]
  | tail _ hstep ih => exact step_preserves_bounded _ _ ih hstep

/-- The initial controller state with empty stacks. -/
def emptyState : IMainState :=
  { cellVMs := [], undoStack := [], redoStack := [], skipNextScroll := false,
    currentExecutionCount := 0, busy := false, submittedText := false,
    dirty := false }

/-- Witness for C9: one clear-all step from the empty initial state. -/
theorem stacks_bounded_reachable_witness :
    (clearAllSilent emptyState).undoStack.length ≤ stackLimit + 1 ∧
    (clearAllSilent emptyState).redoStack.length ≤ stackLimit + 1 :=
  stacks_bounded_reachable.2 emptyState (clearAllSilent emptyState) rfl rfl
    (Relation.ReflTransGen.single (Step.clearAllStep emptyState))

/-- `findIndex` over the cell list with JS semantics: the index of the first
view-model with the given cell id, and -1 when there is none. -/
def findCellIndex (cellVMs : List ICellViewModel) (cellId : String) : Int :=
  match cellVMs.findIdx? (fun cvm => cvm.cell.id == cellId) with
  | some i => (i : Int)
  | none => -1

/-- `NativeEditorStateController.canMoveUp`: index strictly positive. -/
def canMoveUp (s : IMainState) (cellId : String) : Bool :=
  findCellIndex s.cellVMs cellId > 0

/-- `NativeEditorStateController.canMoveDown`: index strictly below
length - 1, over the integers. -/
def canMoveDown (s : IMainState) (cellId : String) : Bool :=
  findCellIndex s.cellVMs cellId < (s.cellVMs.length : Int) - 1

/-- C10: for an id that occurs in no view-model, the index is -1, so
`canMoveUp` returns false, and `canMoveDown` returns true whenever the list is
non-empty (because -1 < length - 1 then). -/
theorem canMove_absent_id (s : IMainState) (cellId : String)
    (habs : ∀ vm ∈ s.cellVMs, vm.cell.id ≠ cellId) :
    findCellIndex s.cellVMs cellId = -1 ∧
    canMoveUp s cellId = false ∧
    (s.cellVMs ≠ [] → canMoveDown s cellId = true) := by
  have hnone : s.cellVMs.findIdx? (fun cvm => cvm.cell.id == cellId) = none := by
    rw [List.findIdx?_eq_none_iff]
    intro x hx
    simpa using habs x hx
  refine ⟨?_, ?_, ?_⟩
  · simp [findCellIndex, hnone]
  · simp [canMoveUp, findCellIndex, hnone]
  · intro hne
    have hlen : 0 < s.cellVMs.length := List.length_pos.mpr hne
    simp only [canMoveDown, findCellIndex, hnone, decide_eq_true_eq]
    omega

/-- Witness for C10: the id "z" is absent from `sampleState`. -/
theorem canMove_absent_id_witness :
    findCellIndex sampleState.cellVMs "z" = -1 ∧
    canMoveUp sampleState "z" = false ∧
    canMoveDown sampleState "z" = true :=
  ⟨(canMove_absent_id sampleState "z" (by decide)).1,
   (canMove_absent_id sampleState "z" (by decide)).2.1,
   (canMove_absent_id sampleState "z" (by decide)).2.2 (by decide)⟩

end VscPy
